import Mathlib

/-!
# Verification of the cover-extraction core of `generate.py`

Shallow embedding of the cover-art extraction pipeline of
`static-music-player/generate.py`:

* `cacheKey` embeds `hashlib.md5(file_path.encode('utf-8')).hexdigest()`
  (a full MD5 implementation over the UTF-8 bytes of the path string);
* `extract_cover` embeds the function of the same name (lines 29-79):
  branch on the mutagen load result, take `covr` for MP4 (always `.jpg`),
  first `APIC` frame for ID3 (`.png` when the declared MIME contains the
  substring `png`, else `.jpg`), write the bytes to
  `<covers_dir_path>/<hash><ext>` unless that path already exists, and
  return `covers/<hash><ext>`; every failure is absorbed into `none`;
* `runAll` embeds the per-file loop of `main` (lines 126-137) building
  `PlaylistRecord` values `{name = f, url = f, cover = extract_cover ...}`.

External effects (the mutagen parse outcome of a given file, and whether
a cache write raises an IO error) are inputs of the embedding: a
`LoadResult` / `FileEnv` value per file.  The cover cache directory is a
finite map from path strings to byte lists.
-/

set_option autoImplicit false

namespace MusicPlayer

/-- Byte sequences: lists of naturals; every produced byte is `< 256`. -/
abbrev Bytes := List Nat

/-! ## MD5 (RFC 1321), used by `generate.py` via `hashlib.md5(...).hexdigest()` -/

/-- Reduce to a 32-bit word. -/
def w32 (n : Nat) : Nat := n % 4294967296

/-- 32-bit left rotation. -/
def rotl32 (x c : Nat) : Nat := w32 (x <<< c) ||| (w32 x >>> (32 - c))

/-- 32-bit bitwise complement. -/
def compl32 (x : Nat) : Nat := w32 x ^^^ 4294967295

/-- The 64 MD5 round constants, `floor(2^32 * |sin(i+1)|)`. -/
def md5K : List Nat :=
  [3614090360, 3905402710, 606105819, 3250441966, 4118548399, 1200080426,
   2821735955, 4249261313, 1770035416, 2336552879, 4294925233, 2304563134,
   1804603682, 4254626195, 2792965006, 1236535329, 4129170786, 3225465664,
   643717713, 3921069994, 3593408605, 38016083, 3634488961, 3889429448,
   568446438, 3275163606, 4107603335, 1163531501, 2850285829, 4243563512,
   1735328473, 2368359562, 4294588738, 2272392833, 1839030562, 4259657740,
   2763975236, 1272893353, 4139469664, 3200236656, 681279174, 3936430074,
   3572445317, 76029189, 3654602809, 3873151461, 530742520, 3299628645,
   4096336452, 1126891415, 2878612391, 4237533241, 1700485571, 2399980690,
   4293915773, 2240044497, 1873313359, 4264355552, 2734768916, 1309151649,
   4149444226, 3174756917, 718787259, 3951481745]

/-- The 64 MD5 per-round left-rotation amounts. -/
def md5S : List Nat :=
  [7, 12, 17, 22, 7, 12, 17, 22, 7, 12, 17, 22, 7, 12, 17, 22,
   5, 9, 14, 20, 5, 9, 14, 20, 5, 9, 14, 20, 5, 9, 14, 20,
   4, 11, 16, 23, 4, 11, 16, 23, 4, 11, 16, 23, 4, 11, 16, 23,
   6, 10, 15, 21, 6, 10, 15, 21, 6, 10, 15, 21, 6, 10, 15, 21]

/-- Round function and message-word index for round `i`. -/
def md5FG (i b c d : Nat) : Nat × Nat :=
  if i < 16 then ((b &&& c) ||| (compl32 b &&& d), i)
  else if i < 32 then ((d &&& b) ||| (compl32 d &&& c), (5 * i + 1) % 16)
  else if i < 48 then (b ^^^ c ^^^ d, (3 * i + 5) % 16)
  else (c ^^^ (b ||| compl32 d), (7 * i) % 16)

/-- One MD5 round: state `(a,b,c,d)`, message words `m`, round index `i`. -/
def md5Round (m : List Nat) (st : Nat × Nat × Nat × Nat) (i : Nat) :
    Nat × Nat × Nat × Nat :=
  let (a, b, c, d) := st
  let (f, g) := md5FG i b c d
  let rot := rotl32 (w32 (a + f + md5K.getD i 0 + m.getD g 0)) (md5S.getD i 0)
  (d, w32 (b + rot), b, c)

/-- Decode a 64-byte chunk into 16 little-endian 32-bit words. -/
def md5Words (chunk : List Nat) : List Nat :=
  (List.range 16).map fun g =>
    chunk.getD (4 * g) 0 + 256 * chunk.getD (4 * g + 1) 0 +
      65536 * chunk.getD (4 * g + 2) 0 + 16777216 * chunk.getD (4 * g + 3) 0

/-- Process one 64-byte chunk. -/
def md5Chunk (st : Nat × Nat × Nat × Nat) (chunk : List Nat) :
    Nat × Nat × Nat × Nat :=
  let (a0, b0, c0, d0) := st
  let (a, b, c, d) := (List.range 64).foldl (md5Round (md5Words chunk)) st
  (w32 (a0 + a), w32 (b0 + b), w32 (c0 + c), w32 (d0 + d))

/-- MD5 padding: `0x80`, zeros to 56 mod 64, 8-byte little-endian bit length. -/
def md5Pad (msg : Bytes) : Bytes :=
  let bitLen := 8 * msg.length
  let padZeros := (119 - msg.length % 64) % 64
  msg ++ [128] ++ List.replicate padZeros 0 ++
    (List.range 8).map fun k => bitLen / 256 ^ k % 256

/-- Split into 64-byte chunks, with fuel for structural recursion (the
fuel is the list's length, ample since every step drops 64 > 0 bytes). -/
def chunksAux : Nat → List Nat → List (List Nat)
  | 0, _ => []
  | _, [] => []
  | fuel + 1, a :: l => ((a :: l).take 64) :: chunksAux fuel ((a :: l).drop 64)

/-- Split into 64-byte chunks (the input length is a multiple of 64). -/
def chunks64 (l : List Nat) : List (List Nat) := chunksAux l.length l

/-- Little-endian byte decomposition of a 32-bit word. -/
def word32LE (w : Nat) : Bytes :=
  [w % 256, w / 256 % 256, w / 65536 % 256, w / 16777216 % 256]

/-- The 16-byte MD5 digest of a byte sequence. -/
def md5Digest (msg : Bytes) : Bytes :=
  let (a, b, c, d) :=
    (chunks64 (md5Pad msg)).foldl md5Chunk
      (1732584193, 4023233417, 2562383102, 271733878)
  word32LE a ++ word32LE b ++ word32LE c ++ word32LE d

/-- Lowercase hexadecimal digit: 0-9 map to `'0'`..`'9'` (codes 48..57),
10-15 map to `'a'`..`'f'` (codes 97..102). -/
def hexDigit (n : Nat) : Char :=
  if n < 10 then Char.ofNat (48 + n) else Char.ofNat (87 + n)

/-- Two-character lowercase hex rendering of one byte. -/
def byteHex (b : Nat) : List Char := [hexDigit (b / 16 % 16), hexDigit (b % 16)]

/-- `hashlib.md5(msg).hexdigest()`: the 32-char lowercase hex digest. -/
def md5Hex (msg : Bytes) : String := String.mk ((md5Digest msg).map byteHex).flatten

/-! ## UTF-8 encoding (`str.encode('utf-8')`) -/

/-- UTF-8 bytes of one code point. -/
def utf8Char (c : Char) : Bytes :=
  let n := c.toNat
  if n < 128 then [n]
  else if n < 2048 then [192 + n / 64, 128 + n % 64]
  else if n < 65536 then [224 + n / 4096, 128 + n / 64 % 64, 128 + n % 64]
  else [240 + n / 262144, 128 + n / 4096 % 64, 128 + n / 64 % 64, 128 + n % 64]

/-- `s.encode('utf-8')`. -/
def utf8Encode (s : String) : Bytes := (s.data.map utf8Char).flatten

/-- `hashlib.md5(file_path.encode('utf-8')).hexdigest()` (generate.py line 43). -/
def cacheKey (file_path : String) : String := md5Hex (utf8Encode file_path)

/-! ## Python substring test (`'png' in tag.mime`) -/

/-- `needle` is an initial segment of `hay`. -/
def leadsWith : List Char → List Char → Bool
  | [], _ => true
  | a :: as, hay =>
    match hay with
    | [] => false
    | b :: bs => a == b && leadsWith as bs

/-- `needle` occurs contiguously in `hay`. -/
def hasSub (needle : List Char) : List Char → Bool
  | [] => leadsWith needle []
  | b :: bs => leadsWith needle (b :: bs) || hasSub needle bs

/-- Python `sub in s` on strings: contiguous substring test. -/
def strContains (s sub : String) : Bool := hasSub sub.data s.data

/-! ## The cover cache directory as a finite map -/

/-- The covers directory: an association list, path string to file bytes. -/
abbrev FS := List (String × Bytes)

/-- `os.path.exists` / read: first binding for a path, if any. -/
def fsLookup (fs : FS) (p : String) : Option Bytes :=
  match fs with
  | [] => none
  | (q, b) :: rest => if q = p then some b else fsLookup rest p

/-- `open(p, 'wb').write(b)`: add a binding (callers guard on absence). -/
def fsWrite (fs : FS) (p : String) (b : Bytes) : FS := (p, b) :: fs

/-! ## Mutagen load outcomes (the external library's result, an input here) -/

/-- One ID3 frame as mutagen exposes it, in file order. -/
inductive ID3Frame where
  /-- An `APIC` attached-picture frame: declared MIME string and image bytes. -/
  | apic (mime : String) (data : Bytes)
  /-- Any non-APIC frame. -/
  | other (id : String)
  deriving DecidableEq

/-- The `audio.tags` object of a successfully loaded file. -/
inductive Tags where
  /-- MP4 tags; `covr` maps to the given list of cover payloads when present. -/
  | mp4 (covr : List Bytes)
  /-- ID3 tags: the frames in file order (mutagen dict preserves insert order). -/
  | id3 (frames : List ID3Frame)
  /-- Tags of some other container: no `covr` key and not an `ID3` instance. -/
  | otherTags
  /-- `audio.tags` is `None` (`'covr' in None` raises, caught by the handler). -/
  | noTags
  deriving DecidableEq

/-- The outcome of `mutagen.File(file_path)` for one input file. -/
inductive LoadResult where
  /-- `File(...)` (or anything before the tag scan) raised an exception. -/
  | err
  /-- `File(...)` returned a falsy value (`if not audio: return None`). -/
  | notAudio
  /-- `File(...)` returned an audio object with the given tags. -/
  | ok (tags : Tags)
  deriving DecidableEq

/-- Per-file external environment: the mutagen outcome, and whether an
attempted cache write would raise an IO error. -/
structure FileEnv where
  load : LoadResult
  writeFails : Bool
  deriving DecidableEq

/-! ## `extract_cover` (generate.py lines 29-79) -/

/-- `COVERS_DIR = "covers"` (generate.py line 27). -/
def COVERS_DIR : String := "covers"

/-- The `for tag in audio.tags.values(): if isinstance(tag, APIC): ... break`
loop (lines 55-60): first APIC frame in order, its MIME and data. -/
def firstApic : List ID3Frame → Option (String × Bytes)
  | [] => none
  | .apic mime data :: _ => some (mime, data)
  | .other _ :: rest => firstApic rest

/-- The tag-scanning part of `extract_cover` (lines 48-60): which image
bytes and extension result from the tags, or an absorbed exception, or no
image.  MP4 `covr` always yields `.jpg` (line 51, no payload sniffing);
ID3 APIC yields `.png` iff the declared MIME contains `"png"` (lines 58-59). -/
inductive TagScan where
  | errTags
  | noImage
  | image (data : Bytes) (ext : String)
  deriving DecidableEq

/-- Scan `audio.tags` as lines 48-60 do. -/
def scanTags : Tags → TagScan
  | .noTags => .errTags
  | .mp4 [] => .errTags
  | .mp4 (d :: _) => .image d ".jpg"
  | .otherTags => .noImage
  | .id3 frames =>
    match firstApic frames with
    | none => .noImage
    | some (mime, data) =>
      .image data (if strContains mime "png" then ".png" else ".jpg")

/-- `extract_cover(file_path, covers_dir_path)` (lines 29-79), returning the
covers directory after the call and the function's return value.  `load` is
what `mutagen.File` yields for this path and `writeFails` whether an
attempted cache write raises; both exceptions land in the `except` handler,
which logs and falls through to `return None`.  Line 64's `if image_data:`
is a Python truthiness test: empty image bytes are falsy, so an empty
payload writes nothing and falls through to `return None` exactly like a
missing one. -/
def extract_cover (hasMutagen : Bool) (file_path covers_dir_path : String)
    (load : LoadResult) (writeFails : Bool) (fs : FS) : FS × Option String :=
  if hasMutagen = false then (fs, none)
  else
    match load with
    | .err => (fs, none)
    | .notAudio => (fs, none)
    | .ok tags =>
      let file_hash := cacheKey file_path
      match scanTags tags with
      | .errTags => (fs, none)
      | .noImage => (fs, none)
      | .image data ext =>
        if data.isEmpty then (fs, none)
        else
          let cover_filename := file_hash ++ ext
          let cover_path := covers_dir_path ++ "/" ++ cover_filename
          if (fsLookup fs cover_path).isSome then
            (fs, some (COVERS_DIR ++ "/" ++ cover_filename))
          else if writeFails then (fs, none)
          else (fsWrite fs cover_path data,
                some (COVERS_DIR ++ "/" ++ cover_filename))

/-! ## The per-file loop of `main` (generate.py lines 126-137) -/

/-- One playlist entry (lines 133-137). -/
structure PlaylistRecord where
  name : String
  url : String
  cover : Option String
  deriving DecidableEq

/-- `os.path.join(target_dir, f)` for a bare filename `f`. -/
def pathJoin (dir f : String) : String := dir ++ "/" ++ f

/-- One iteration of the loop: build `full_path`, extract, append record. -/
def processOne (hasMutagen : Bool) (target_dir covers_path : String)
    (fs : FS) (inp : String × FileEnv) : FS × PlaylistRecord :=
  let full_path := pathJoin target_dir inp.1
  let r := extract_cover hasMutagen full_path covers_path
    inp.2.load inp.2.writeFails fs
  (r.1, ⟨inp.1, inp.1, r.2⟩)

/-- The whole loop over the (already sorted, upstream) file list: each input
is a bare filename paired with its external environment. -/
def runAll (hasMutagen : Bool) (target_dir covers_path : String)
    (fs : FS) : List (String × FileEnv) → FS × List PlaylistRecord
  | [] => (fs, [])
  | inp :: rest =>
    let r1 := processOne hasMutagen target_dir covers_path fs inp
    let r2 := runAll hasMutagen target_dir covers_path r1.1 rest
    (r2.1, r1.2 :: r2.2)

/-! ## Basic lemmas about the digest -/

theorem byteHex_length (b : Nat) : (byteHex b).length = 2 := rfl

theorem flatten_map_byteHex_length (l : Bytes) :
    ((l.map byteHex).flatten).length = 2 * l.length := by
  induction l with
  | nil => rfl
  | cons b bs ih => simp [byteHex] at ih ⊢; omega

theorem md5Digest_length (msg : Bytes) : (md5Digest msg).length = 16 := by
  unfold md5Digest
  rcases (chunks64 (md5Pad msg)).foldl md5Chunk
    (1732584193, 4023233417, 2562383102, 271733878) with ⟨a, b, c, d⟩
  simp [word32LE]

theorem md5Hex_length (msg : Bytes) : (md5Hex msg).length = 32 := by
  show ((md5Digest msg).map byteHex).flatten.length = 32
  rw [flatten_map_byteHex_length, md5Digest_length]

theorem cacheKey_length (p : String) : (cacheKey p).length = 32 :=
  md5Hex_length (utf8Encode p)

/-! ## Basic lemmas about the covers-directory map -/

theorem fsLookup_nil (p : String) : fsLookup [] p = none := rfl

theorem fsLookup_fsWrite (fs : FS) (p q : String) (b : Bytes) :
    fsLookup (fsWrite fs p b) q = if p = q then some b else fsLookup fs q := rfl

/-! ## Basic lemmas about the tag scan -/

/-- The extension attached to any extracted image is `.jpg` or `.png`. -/
theorem scanTags_ext (tags : Tags) (d : Bytes) (ext : String)
    (h : scanTags tags = .image d ext) : ext = ".jpg" ∨ ext = ".png" := by
  cases tags with
  | mp4 covr =>
    cases covr with
    | nil => simp [scanTags] at h
    | cons x l => simp [scanTags] at h; left; exact h.2.symm
  | id3 frames =>
    simp [scanTags] at h
    rcases hfa : firstApic frames with - | mp
    · rw [hfa] at h; simp at h
    · rw [hfa] at h
      simp at h
      rcases h with ⟨-, he⟩
      by_cases hc : strContains mp.1 "png" = true
      · right; rw [← he]; simp [hc]
      · left; rw [← he]; simp [hc]
  | otherTags => simp [scanTags] at h
  | noTags => simp [scanTags] at h

/-- The first-APIC scan skips over an APIC-free initial segment. -/
theorem firstApic_append (pre l : List ID3Frame) (h : firstApic pre = none) :
    firstApic (pre ++ l) = firstApic l := by
  induction pre with
  | nil => rfl
  | cons f rest ih =>
    cases f with
    | apic m d => simp [firstApic] at h
    | other i => exact ih (by simpa [firstApic] using h)

/-! ## Unfolding lemmas for `extract_cover` -/

theorem extract_cover_noMutagen (p cd : String) (load : LoadResult)
    (wf : Bool) (fs : FS) : extract_cover false p cd load wf fs = (fs, none) := rfl

theorem extract_cover_err (p cd : String) (wf : Bool) (fs : FS) :
    extract_cover true p cd .err wf fs = (fs, none) := rfl

theorem extract_cover_notAudio (p cd : String) (wf : Bool) (fs : FS) :
    extract_cover true p cd .notAudio wf fs = (fs, none) := rfl

theorem extract_cover_ok (p cd : String) (tags : Tags) (wf : Bool) (fs : FS) :
    extract_cover true p cd (.ok tags) wf fs =
      match scanTags tags with
      | .errTags => (fs, none)
      | .noImage => (fs, none)
      | .image data ext =>
        if data.isEmpty then (fs, none)
        else if (fsLookup fs (cd ++ "/" ++ (cacheKey p ++ ext))).isSome then
          (fs, some (COVERS_DIR ++ "/" ++ (cacheKey p ++ ext)))
        else if wf then (fs, none)
        else (fsWrite fs (cd ++ "/" ++ (cacheKey p ++ ext)) data,
              some (COVERS_DIR ++ "/" ++ (cacheKey p ++ ext))) := rfl

theorem extract_cover_image (p cd : String) (tags : Tags) (wf : Bool) (fs : FS)
    (d : Bytes) (ext : String) (h : scanTags tags = .image d ext)
    (hd : d.isEmpty = false) :
    extract_cover true p cd (.ok tags) wf fs =
      (if (fsLookup fs (cd ++ "/" ++ (cacheKey p ++ ext))).isSome then
        (fs, some (COVERS_DIR ++ "/" ++ (cacheKey p ++ ext)))
      else if wf then (fs, none)
      else (fsWrite fs (cd ++ "/" ++ (cacheKey p ++ ext)) d,
            some (COVERS_DIR ++ "/" ++ (cacheKey p ++ ext)))) := by
  rw [extract_cover_ok, h]
  simp only [hd, Bool.false_eq_true, if_false]

/-- Line 64: empty image bytes are falsy, so nothing is cached and the
function falls through to `return None`. -/
theorem extract_cover_image_empty (p cd : String) (tags : Tags) (wf : Bool)
    (fs : FS) (d : Bytes) (ext : String) (h : scanTags tags = .image d ext)
    (hd : d.isEmpty = true) :
    extract_cover true p cd (.ok tags) wf fs = (fs, none) := by
  rw [extract_cover_ok, h]
  simp only [hd, if_true]

/-! ## Unfolding lemmas for the loop -/

theorem runAll_nil (hm : Bool) (td cp : String) (fs : FS) :
    runAll hm td cp fs [] = (fs, []) := rfl

theorem runAll_cons (hm : Bool) (td cp : String) (fs : FS)
    (inp : String × FileEnv) (rest : List (String × FileEnv)) :
    runAll hm td cp fs (inp :: rest) =
      ((runAll hm td cp (processOne hm td cp fs inp).1 rest).1,
       (processOne hm td cp fs inp).2 ::
         (runAll hm td cp (processOne hm td cp fs inp).1 rest).2) := rfl

/-! ## Shape of the record list produced by the loop -/

theorem runAll_length (hm : Bool) (td cp : String) (fs : FS)
    (files : List (String × FileEnv)) :
    (runAll hm td cp fs files).2.length = files.length := by
  induction files generalizing fs with
  | nil => rfl
  | cons inp rest ih => rw [runAll_cons]; simp [ih]

theorem runAll_names (hm : Bool) (td cp : String) (fs : FS)
    (files : List (String × FileEnv)) :
    (runAll hm td cp fs files).2.map PlaylistRecord.name = files.map Prod.fst := by
  induction files generalizing fs with
  | nil => rfl
  | cons inp rest ih => rw [runAll_cons]; simp [processOne, ih]

theorem runAll_urls (hm : Bool) (td cp : String) (fs : FS)
    (files : List (String × FileEnv)) :
    (runAll hm td cp fs files).2.map PlaylistRecord.url = files.map Prod.fst := by
  induction files generalizing fs with
  | nil => rfl
  | cons inp rest ih => rw [runAll_cons]; simp [processOne, ih]

/-! ## Claim C4: the cache key is deterministic and fixed-width -/

/-- Claim C4: the cache key is a fixed-width 128-bit digest (32 lowercase hex
characters) and a pure function of the file's path string: equal path strings
yield equal keys, within and across runs (the key is a mathematical function
of the path alone). -/
theorem C4_cacheKey_deterministic (p q : String) (h : p = q) :
    cacheKey p = cacheKey q ∧ (cacheKey p).length = 32 :=
  ⟨by rw [h], cacheKey_length p⟩

/-- Witness for C4 at the concrete path `music/song.mp3`. -/
theorem C4_witness :
    cacheKey "music/song.mp3" = cacheKey "music/song.mp3" ∧
      (cacheKey "music/song.mp3").length = 32 :=
  C4_cacheKey_deterministic "music/song.mp3" "music/song.mp3" rfl

/-! ## Claim C7: output order equals input order -/

/-- Claim C7: the loop of `main` produces exactly one record per input file,
in the same order: the output length equals the input length and the record
names (and urls) listed in output order are exactly the input filenames in
input order — the core never re-sorts. -/
theorem C7_order_preserved (hm : Bool) (td cp : String) (fs : FS)
    (files : List (String × FileEnv)) :
    (runAll hm td cp fs files).2.length = files.length
    ∧ (runAll hm td cp fs files).2.map PlaylistRecord.name = files.map Prod.fst
    ∧ (runAll hm td cp fs files).2.map PlaylistRecord.url = files.map Prod.fst :=
  ⟨runAll_length hm td cp fs files, runAll_names hm td cp fs files,
    runAll_urls hm td cp fs files⟩

/-! ## Claim C9: `extract_cover` absorbs every failure into `none` -/

/-- Claim C9: `extract_cover` is total at its interface: it always returns
`none` or `some s`, and each failure mode — missing mutagen library,
unreadable file (`File` raises), unrecognized container (`File` returns a
falsy value), a recognized file with no tags at all, an empty `covr` list,
tags of an unsupported scheme, a tag set with no picture, and a failing
cache write — is absorbed into `(fs, none)` rather than propagated. -/
theorem C9_extract_cover_total (p cd : String) (load : LoadResult) (wf : Bool)
    (fs : FS) (d : Bytes) :
    ((extract_cover true p cd load wf fs).2 = none
      ∨ ∃ s, (extract_cover true p cd load wf fs).2 = some s)
    ∧ extract_cover false p cd load wf fs = (fs, none)
    ∧ extract_cover true p cd .err wf fs = (fs, none)
    ∧ extract_cover true p cd .notAudio wf fs = (fs, none)
    ∧ extract_cover true p cd (.ok .noTags) wf fs = (fs, none)
    ∧ extract_cover true p cd (.ok (.mp4 [])) wf fs = (fs, none)
    ∧ extract_cover true p cd (.ok .otherTags) wf fs = (fs, none)
    ∧ extract_cover true p cd (.ok (.id3 [])) wf fs = (fs, none)
    ∧ extract_cover true p cd (.ok (.mp4 [d])) true [] = ([], none) := by
  refine ⟨?_, rfl, rfl, rfl, rfl, rfl, rfl, rfl, ?_⟩
  · rcases h : (extract_cover true p cd load wf fs).2 with - | s
    · exact Or.inl rfl
    · exact Or.inr ⟨s, rfl⟩
  · cases d with
    | nil => rfl
    | cons x xs => rfl

/-! ## Claim C10: records carry the bare filename as both name and url -/

/-- Claim C10: in every produced record, `url` equals `name`, and both equal
the bare filename of the corresponding input file (position by position); the
core applies no URL encoding or path transformation. -/
theorem C10_name_url_bare (hm : Bool) (td cp : String) (fs : FS)
    (files : List (String × FileEnv)) :
    (runAll hm td cp fs files).2.map PlaylistRecord.url
        = (runAll hm td cp fs files).2.map PlaylistRecord.name
    ∧ (runAll hm td cp fs files).2.map PlaylistRecord.name
        = files.map Prod.fst := by
  refine ⟨?_, runAll_names hm td cp fs files⟩
  rw [runAll_urls hm td cp fs files, runAll_names hm td cp fs files]

/-! ## Claim C5: ID3 round-trip with MIME image/jpeg -/

/-- Claim C5: for an ID3 tag carrying an APIC frame with MIME `image/jpeg`
and (nonempty) image bytes `B` (no APIC frame before it), extraction on a
fresh cache writes the cached file `<covers_dir>/<key>.jpg` with contents
exactly `B` and returns the relative reference `covers/<key>.jpg`.  (Empty
`B` is falsy at line 64 and would yield no write and `None`.) -/
theorem C5_id3_roundtrip (p cd : String) (B : Bytes) (fs : FS)
    (pre post : List ID3Frame) (hB : B.isEmpty = false)
    (hpre : firstApic pre = none)
    (hfresh : fsLookup fs (cd ++ "/" ++ (cacheKey p ++ ".jpg")) = none) :
    extract_cover true p cd (.ok (.id3 (pre ++ .apic "image/jpeg" B :: post)))
        false fs
      = (fsWrite fs (cd ++ "/" ++ (cacheKey p ++ ".jpg")) B,
         some (COVERS_DIR ++ "/" ++ (cacheKey p ++ ".jpg")))
    ∧ fsLookup (fsWrite fs (cd ++ "/" ++ (cacheKey p ++ ".jpg")) B)
        (cd ++ "/" ++ (cacheKey p ++ ".jpg")) = some B := by
  have h1 : firstApic (pre ++ .apic "image/jpeg" B :: post)
      = some ("image/jpeg", B) := by
    rw [firstApic_append _ _ hpre]; rfl
  have hscan : scanTags (.id3 (pre ++ .apic "image/jpeg" B :: post))
      = .image B ".jpg" := by
    simp [scanTags, h1]
    rfl
  constructor
  · rw [extract_cover_image _ _ _ _ _ _ _ hscan hB, hfresh]
    rfl
  · rw [fsLookup_fsWrite]
    simp

/-! ## Claim C8: the first APIC frame wins -/

/-- Claim C8: when an ID3 tag holds more than one APIC frame, extraction
uses the first one in file order: the frame scan returns the first APIC's
MIME and data, and the whole extraction behaves exactly as if the tag
contained only that first APIC frame — every later APIC frame is ignored. -/
theorem C8_first_apic_wins (p cd : String) (wf : Bool) (fs : FS)
    (pre mid post rest' : List ID3Frame) (m1 m2 : String) (d1 d2 : Bytes)
    (hpre : firstApic pre = none) :
    firstApic (pre ++ (.apic m1 d1 :: (mid ++ (.apic m2 d2 :: post))))
        = some (m1, d1)
    ∧ extract_cover true p cd
        (.ok (.id3 (pre ++ (.apic m1 d1 :: (mid ++ (.apic m2 d2 :: post)))))) wf fs
      = extract_cover true p cd (.ok (.id3 (pre ++ .apic m1 d1 :: rest'))) wf fs := by
  have h1 : firstApic (pre ++ (.apic m1 d1 :: (mid ++ (.apic m2 d2 :: post))))
      = some (m1, d1) := by
    rw [firstApic_append _ _ hpre]; rfl
  have h2 : firstApic (pre ++ .apic m1 d1 :: rest') = some (m1, d1) := by
    rw [firstApic_append _ _ hpre]; rfl
  refine ⟨h1, ?_⟩
  rw [extract_cover_ok, extract_cover_ok]
  have hs : scanTags
        (.id3 (pre ++ (.apic m1 d1 :: (mid ++ (.apic m2 d2 :: post)))))
      = scanTags (.id3 (pre ++ .apic m1 d1 :: rest')) := by
    simp only [scanTags, h1, h2]
  rw [hs]

/-! ## Claim C2: MP4 covers are never sniffed — always cached as `.jpg` -/

/-- Counterexample to claim C2: an MP4 `covr` payload that begins with the
PNG magic bytes `0x89 P N G \r \n 0x1a \n` is cached and referenced with a
`.jpg` extension, not `.png`: line 51 of `generate.py` sets `ext = ".jpg"`
unconditionally and never inspects the payload's leading bytes. -/
theorem C2_counterexample :
    (extract_cover true "m/a.m4a" "m/covers"
        (.ok (.mp4 [[137, 80, 78, 71, 13, 10, 26, 10]])) false []).2
      = some ("covers/" ++ (cacheKey "m/a.m4a" ++ ".jpg"))
    ∧ (extract_cover true "m/a.m4a" "m/covers"
        (.ok (.mp4 [[137, 80, 78, 71, 13, 10, 26, 10]])) false []).2
      ≠ some ("covers/" ++ (cacheKey "m/a.m4a" ++ ".png")) := by
  refine ⟨rfl, ?_⟩
  intro h
  rw [extract_cover_image "m/a.m4a" "m/covers"
    (.mp4 [[137, 80, 78, 71, 13, 10, 26, 10]]) false []
    [137, 80, 78, 71, 13, 10, 26, 10] ".jpg" rfl rfl] at h
  simp only [fsLookup_nil, Option.isSome_none, Bool.false_eq_true, if_false,
    Option.some.injEq] at h
  have hd := congrArg String.data h
  simp only [String.data_append] at hd
  have h2 := List.append_cancel_left hd
  have h3 := List.append_cancel_left h2
  simp at h3

/-- Claim C2 as amended by the counterexample: the artwork of an MP4/M4A
`covr` atom — any nonempty payload, including one that begins with the PNG
magic bytes — is always cached with the `.jpg` extension; the payload's
leading bytes are never sniffed.  On a fresh cache the payload is persisted
verbatim at `<covers_dir>/<key>.jpg` and the reference `covers/<key>.jpg`
is returned.  (An empty payload is falsy at line 64 and yields `None`.) -/
theorem C2_amended_mp4_always_jpg (p cd : String) (payload : Bytes)
    (rest : List Bytes) (fs : FS) (hne : payload.isEmpty = false)
    (hfresh : fsLookup fs (cd ++ "/" ++ (cacheKey p ++ ".jpg")) = none) :
    extract_cover true p cd (.ok (.mp4 (payload :: rest))) false fs
      = (fsWrite fs (cd ++ "/" ++ (cacheKey p ++ ".jpg")) payload,
         some (COVERS_DIR ++ "/" ++ (cacheKey p ++ ".jpg"))) := by
  rw [extract_cover_image p cd (.mp4 (payload :: rest)) false fs
    payload ".jpg" rfl hne, hfresh]
  rfl

/-- Witness for C2 (amended) at the PNG-magic payload of the counterexample. -/
theorem C2_amended_witness :
    extract_cover true "m/a.m4a" "m/covers"
        (.ok (.mp4 [[137, 80, 78, 71, 13, 10, 26, 10]])) false []
      = (fsWrite [] ("m/covers" ++ "/" ++ (cacheKey "m/a.m4a" ++ ".jpg"))
           [137, 80, 78, 71, 13, 10, 26, 10],
         some (COVERS_DIR ++ "/" ++ (cacheKey "m/a.m4a" ++ ".jpg"))) :=
  C2_amended_mp4_always_jpg "m/a.m4a" "m/covers"
    [137, 80, 78, 71, 13, 10, 26, 10] [] [] rfl rfl

/-! ## Claim C6: the ID3 MIME rule is a substring test, not equality -/

/-- Counterexample to claim C6: the declared MIME `"x-png"` differs from
`"image/png"`, yet extraction maps it to a `.png` extension — line 58 of
`generate.py` tests `'png' in tag.mime` (substring), not equality with
`image/png`, so C6's "any other MIME value defaults to JPEG" is false. -/
theorem C6_counterexample :
    (extract_cover true "m/a.mp3" "m/covers"
        (.ok (.id3 [.apic "x-png" [0]])) false []).2
      = some ("covers/" ++ (cacheKey "m/a.mp3" ++ ".png"))
    ∧ "x-png" ≠ "image/png" := by
  refine ⟨rfl, ?_⟩
  decide

/-- Claim C6 as amended by the counterexample: the cached extension of an
ID3 APIC image is derived from the declared MIME string by a substring
test — any MIME containing `"png"` maps to `.png`, every other MIME value
(e.g. `image/jpeg`, or any unexpected string) maps to `.jpg` — and no MIME
value can make the scan fail: the scan of an APIC frame always produces its
image bytes with one of those two extensions. -/
theorem C6_amended_mime_substring (mime : String) (d : Bytes)
    (rest : List ID3Frame) (hpng : strContains mime "png" = true) :
    scanTags (.id3 (.apic mime d :: rest)) = .image d ".png"
    ∧ ∀ m2 : String, strContains m2 "png" = false →
        scanTags (.id3 (.apic m2 d :: rest)) = .image d ".jpg" := by
  constructor
  · simp [scanTags, firstApic, hpng]
  · intro m2 h2
    simp [scanTags, firstApic, h2]

/-- Witness for C6 (amended) at the MIMEs `"x-png"` and `"image/jpeg"`. -/
theorem C6_amended_witness :
    scanTags (.id3 [.apic "x-png" [0]]) = .image [0] ".png"
    ∧ ∀ m2 : String, strContains m2 "png" = false →
        scanTags (.id3 [.apic m2 [0]]) = .image [0] ".jpg" :=
  C6_amended_mime_substring "x-png" [0] [] (by decide)

/-- Witness for C5: a one-frame ID3 tag with MIME `image/jpeg` and bytes
`[1, 2, 3]`, extracted against an empty cache. -/
theorem C5_witness :
    extract_cover true "m/a.mp3" "m/covers"
        (.ok (.id3 ([] ++ .apic "image/jpeg" [1, 2, 3] :: []))) false []
      = (fsWrite [] ("m/covers" ++ "/" ++ (cacheKey "m/a.mp3" ++ ".jpg"))
           [1, 2, 3],
         some (COVERS_DIR ++ "/" ++ (cacheKey "m/a.mp3" ++ ".jpg")))
    ∧ fsLookup
        (fsWrite [] ("m/covers" ++ "/" ++ (cacheKey "m/a.mp3" ++ ".jpg"))
          [1, 2, 3])
        ("m/covers" ++ "/" ++ (cacheKey "m/a.mp3" ++ ".jpg")) = some [1, 2, 3] :=
  C5_id3_roundtrip "m/a.mp3" "m/covers" [1, 2, 3] [] [] [] rfl rfl rfl

/-- Witness for C8: a tag with a JPEG APIC followed by a PNG APIC behaves
exactly like a tag with only the JPEG APIC. -/
theorem C8_witness :
    firstApic
        ([] ++ (.apic "image/jpeg" [1] :: ([] ++ (.apic "image/png" [2] :: []))))
      = some ("image/jpeg", [1])
    ∧ extract_cover true "m/a.mp3" "m/covers"
        (.ok (.id3
          ([] ++ (.apic "image/jpeg" [1] :: ([] ++ (.apic "image/png" [2] :: []))))))
        false []
      = extract_cover true "m/a.mp3" "m/covers"
        (.ok (.id3 ([] ++ .apic "image/jpeg" [1] :: []))) false [] :=
  C8_first_apic_wins "m/a.mp3" "m/covers" false [] [] [] [] []
    "image/jpeg" "image/png" [1] [2] rfl

/-! ## Cache monotonicity: extraction never removes or rewrites an entry -/

/-- `extract_cover` preserves every existing cache binding. -/
theorem extract_cover_mono (hm : Bool) (p cd : String) (load : LoadResult)
    (wf : Bool) (fs : FS) (q : String) (b : Bytes)
    (h : fsLookup fs q = some b) :
    fsLookup (extract_cover hm p cd load wf fs).1 q = some b := by
  cases hm with
  | false => exact h
  | true =>
    cases load with
    | err => exact h
    | notAudio => exact h
    | ok tags =>
      cases hscan : scanTags tags with
      | errTags => rw [extract_cover_ok, hscan]; exact h
      | noImage => rw [extract_cover_ok, hscan]; exact h
      | image d ext =>
        cases hd : d.isEmpty with
        | true => rw [extract_cover_image_empty _ _ _ _ _ _ _ hscan hd]; exact h
        | false =>
          rw [extract_cover_image _ _ _ _ _ _ _ hscan hd]
          cases hl : fsLookup fs (cd ++ "/" ++ (cacheKey p ++ ext)) with
          | some c => simpa using h
          | none =>
            cases wf with
            | true => simpa using h
            | false =>
              simp only [Option.isSome_none, Bool.false_eq_true, if_false]
              rw [fsLookup_fsWrite]
              split
              · next heq => rw [heq] at hl; rw [hl] at h; cases h
              · exact h

/-- The whole loop preserves every existing cache binding. -/
theorem runAll_mono (hm : Bool) (td cp : String) (fs : FS)
    (files : List (String × FileEnv)) (q : String) (b : Bytes)
    (h : fsLookup fs q = some b) :
    fsLookup (runAll hm td cp fs files).1 q = some b := by
  induction files generalizing fs with
  | nil => exact h
  | cons inp rest ih =>
    rw [runAll_cons]
    exact ih _ (extract_cover_mono _ _ _ _ _ _ _ _ h)

/-- Re-running `extract_cover` (with no write failure) against any cache
that contains everything the first run left behind changes nothing and
returns the same value. -/
theorem extract_cover_idem (hm : Bool) (p cd : String) (load : LoadResult)
    (fs fs2 : FS)
    (hext : ∀ q b, fsLookup (extract_cover hm p cd load false fs).1 q = some b →
        fsLookup fs2 q = some b) :
    extract_cover hm p cd load false fs2
      = (fs2, (extract_cover hm p cd load false fs).2) := by
  cases hm with
  | false => rfl
  | true =>
    cases load with
    | err => rfl
    | notAudio => rfl
    | ok tags =>
      cases hscan : scanTags tags with
      | errTags => rw [extract_cover_ok, extract_cover_ok, hscan]
      | noImage => rw [extract_cover_ok, extract_cover_ok, hscan]
      | image d ext =>
        cases hd : d.isEmpty with
        | true =>
          rw [extract_cover_image_empty _ _ _ _ fs2 _ _ hscan hd,
              extract_cover_image_empty _ _ _ _ fs _ _ hscan hd]
        | false =>
          rw [extract_cover_image _ _ _ _ _ _ _ hscan hd,
            extract_cover_image _ _ _ _ _ _ _ hscan hd]
          have hcached : fsLookup fs2 (cd ++ "/" ++ (cacheKey p ++ ext)) ≠ none := by
            cases hl : fsLookup fs (cd ++ "/" ++ (cacheKey p ++ ext)) with
            | some c =>
              have := hext _ c (by
                rw [extract_cover_image _ _ _ _ _ _ _ hscan hd, hl]
                simpa using hl)
              rw [this]; exact Option.some_ne_none c
            | none =>
              have hw : fsLookup
                  (extract_cover true p cd (.ok tags) false fs).1
                  (cd ++ "/" ++ (cacheKey p ++ ext)) = some d := by
                rw [extract_cover_image _ _ _ _ _ _ _ hscan hd, hl]
                simp only [Option.isSome_none, Bool.false_eq_true, if_false]
                rw [fsLookup_fsWrite]
                simp
              have := hext _ d hw
              rw [this]; exact Option.some_ne_none d
          cases hl2 : fsLookup fs2 (cd ++ "/" ++ (cacheKey p ++ ext)) with
          | none => exact absurd hl2 hcached
          | some c =>
            cases hl : fsLookup fs (cd ++ "/" ++ (cacheKey p ++ ext)) <;> simp

/-- `processOne` unfolded to its `extract_cover` core. -/
theorem processOne_eq (hm : Bool) (td cp : String) (fs : FS)
    (inp : String × FileEnv) :
    processOne hm td cp fs inp
      = ((extract_cover hm (pathJoin td inp.1) cp inp.2.load
            inp.2.writeFails fs).1,
         ⟨inp.1, inp.1,
          (extract_cover hm (pathJoin td inp.1) cp inp.2.load
            inp.2.writeFails fs).2⟩) := rfl

/-! ## Claim C3: a second run over an unchanged file set is a no-op -/

/-- Claim C3: running the extraction loop a second time over an unchanged
file set (same files, same parse outcomes, no write failures) performs no
new cache writes — the covers directory after the second run is byte-for-byte
the one the first run left — and produces the identical record list: a
cached cover is returned by reference without rewriting its file. -/
theorem C3_second_run_idempotent (hm : Bool) (td cp : String) (fs : FS)
    (files : List (String × FileEnv))
    (hwf : ∀ g ∈ files, g.2.writeFails = false) :
    runAll hm td cp (runAll hm td cp fs files).1 files
      = runAll hm td cp fs files := by
  induction files generalizing fs with
  | nil => rfl
  | cons inp rest ih =>
    have hwf0 : inp.2.writeFails = false := hwf inp (List.mem_cons_self _ _)
    have hwfr : ∀ g ∈ rest, g.2.writeFails = false := fun g hg =>
      hwf g (List.mem_cons_of_mem _ hg)
    simp only [runAll_cons, processOne_eq, hwf0]
    have hext : ∀ q b,
        fsLookup (extract_cover hm (pathJoin td inp.1) cp inp.2.load
            false fs).1 q = some b →
        fsLookup (runAll hm td cp
            (extract_cover hm (pathJoin td inp.1) cp inp.2.load false fs).1
            rest).1 q = some b := by
      intro q b hq
      exact runAll_mono _ _ _ _ _ _ _ hq
    have hide := extract_cover_idem hm (pathJoin td inp.1) cp inp.2.load fs
      (runAll hm td cp
        (extract_cover hm (pathJoin td inp.1) cp inp.2.load false fs).1
        rest).1 hext
    rw [hide]
    simp only []
    rw [ih _ hwfr]

/-! ## Isolation machinery: one file's run touches only its own cache paths -/

/-- Cover paths built from different equal-length keys differ, whatever
extensions are appended. -/
theorem coverPath_ne (cp k1 k2 e1 e2 : String) (hlen : k1.length = k2.length)
    (hne : k1 ≠ k2) : cp ++ "/" ++ (k1 ++ e1) ≠ cp ++ "/" ++ (k2 ++ e2) := by
  intro h
  apply hne
  have hd := congrArg String.data h
  simp only [String.data_append] at hd
  have h2 := List.append_cancel_left hd
  exact String.ext (List.append_inj_left h2 hlen)

/-- `extract_cover` can only change the cache at its own two candidate
paths `<cd>/<key>.jpg` and `<cd>/<key>.png`. -/
theorem extract_cover_lookup_off (hm : Bool) (p cd : String)
    (load : LoadResult) (wf : Bool) (fs : FS) (q : String)
    (h1 : q ≠ cd ++ "/" ++ (cacheKey p ++ ".jpg"))
    (h2 : q ≠ cd ++ "/" ++ (cacheKey p ++ ".png")) :
    fsLookup (extract_cover hm p cd load wf fs).1 q = fsLookup fs q := by
  cases hm with
  | false => rfl
  | true =>
    cases load with
    | err => rfl
    | notAudio => rfl
    | ok tags =>
      cases hscan : scanTags tags with
      | errTags => rw [extract_cover_ok, hscan]
      | noImage => rw [extract_cover_ok, hscan]
      | image d ext =>
        cases hd : d.isEmpty with
        | true => rw [extract_cover_image_empty _ _ _ _ _ _ _ hscan hd]
        | false =>
          rw [extract_cover_image _ _ _ _ _ _ _ hscan hd]
          have hPq : cd ++ "/" ++ (cacheKey p ++ ext) ≠ q := by
            rcases scanTags_ext _ _ _ hscan with he | he <;> subst he
            · exact fun hh => h1 hh.symm
            · exact fun hh => h2 hh.symm
          cases hl : fsLookup fs (cd ++ "/" ++ (cacheKey p ++ ext)) with
          | some c => rfl
          | none =>
            cases wf with
            | true => rfl
            | false =>
              simp only [Option.isSome_none, Bool.false_eq_true, if_false,
                fsLookup_fsWrite]
              rw [if_neg hPq]

/-- If two caches agree away from two fixed paths `K1`, `K2`, and a file's
own candidate paths avoid `K1` and `K2`, then extraction from the two caches
returns the same value and preserves the agreement. -/
theorem extract_cover_congr (hm : Bool) (p cd : String) (load : LoadResult)
    (wf : Bool) (K1 K2 : String) (fs1 fs2 : FS)
    (hagree : ∀ q, q ≠ K1 → q ≠ K2 → fsLookup fs1 q = fsLookup fs2 q)
    (hj1 : cd ++ "/" ++ (cacheKey p ++ ".jpg") ≠ K1)
    (hj2 : cd ++ "/" ++ (cacheKey p ++ ".jpg") ≠ K2)
    (hp1 : cd ++ "/" ++ (cacheKey p ++ ".png") ≠ K1)
    (hp2 : cd ++ "/" ++ (cacheKey p ++ ".png") ≠ K2) :
    (extract_cover hm p cd load wf fs1).2 = (extract_cover hm p cd load wf fs2).2
    ∧ ∀ q, q ≠ K1 → q ≠ K2 →
        fsLookup (extract_cover hm p cd load wf fs1).1 q
          = fsLookup (extract_cover hm p cd load wf fs2).1 q := by
  cases hm with
  | false => exact ⟨rfl, hagree⟩
  | true =>
    cases load with
    | err => exact ⟨rfl, hagree⟩
    | notAudio => exact ⟨rfl, hagree⟩
    | ok tags =>
      cases hscan : scanTags tags with
      | errTags => rw [extract_cover_ok, extract_cover_ok, hscan]; exact ⟨rfl, hagree⟩
      | noImage => rw [extract_cover_ok, extract_cover_ok, hscan]; exact ⟨rfl, hagree⟩
      | image d ext =>
        cases hd : d.isEmpty with
        | true =>
          rw [extract_cover_image_empty _ _ _ _ fs1 _ _ hscan hd,
              extract_cover_image_empty _ _ _ _ fs2 _ _ hscan hd]
          exact ⟨rfl, hagree⟩
        | false =>
        rw [extract_cover_image _ _ _ _ _ _ _ hscan hd,
            extract_cover_image _ _ _ _ _ _ _ hscan hd]
        have hPq : fsLookup fs1 (cd ++ "/" ++ (cacheKey p ++ ext))
            = fsLookup fs2 (cd ++ "/" ++ (cacheKey p ++ ext)) := by
          rcases scanTags_ext _ _ _ hscan with he | he <;> subst he
          · exact hagree _ hj1 hj2
          · exact hagree _ hp1 hp2
        rw [← hPq]
        cases hl : fsLookup fs1 (cd ++ "/" ++ (cacheKey p ++ ext)) with
        | some c => exact ⟨rfl, hagree⟩
        | none =>
          cases wf with
          | true => exact ⟨rfl, hagree⟩
          | false =>
            refine ⟨rfl, ?_⟩
            intro q hq1 hq2
            simp only [Option.isSome_none, Bool.false_eq_true, if_false,
              fsLookup_fsWrite]
            split
            · rfl
            · exact hagree q hq1 hq2

/-- Running the loop over files whose candidate paths avoid `K1` and `K2`,
from two caches that agree away from `K1` and `K2`, yields the same records
and preserves the agreement. -/
theorem runAll_eqOff (hm : Bool) (td cp K1 K2 : String) (fs1 fs2 : FS)
    (post : List (String × FileEnv))
    (hagree : ∀ q, q ≠ K1 → q ≠ K2 → fsLookup fs1 q = fsLookup fs2 q)
    (hK : ∀ g ∈ post,
        (cp ++ "/" ++ (cacheKey (pathJoin td g.1) ++ ".jpg") ≠ K1)
        ∧ (cp ++ "/" ++ (cacheKey (pathJoin td g.1) ++ ".jpg") ≠ K2)
        ∧ (cp ++ "/" ++ (cacheKey (pathJoin td g.1) ++ ".png") ≠ K1)
        ∧ (cp ++ "/" ++ (cacheKey (pathJoin td g.1) ++ ".png") ≠ K2)) :
    (runAll hm td cp fs1 post).2 = (runAll hm td cp fs2 post).2
    ∧ ∀ q, q ≠ K1 → q ≠ K2 →
        fsLookup (runAll hm td cp fs1 post).1 q
          = fsLookup (runAll hm td cp fs2 post).1 q := by
  induction post generalizing fs1 fs2 with
  | nil => exact ⟨rfl, hagree⟩
  | cons g rest ih =>
    obtain ⟨hg1, hg2, hg3, hg4⟩ := hK g (List.mem_cons_self _ _)
    have hcon := extract_cover_congr hm (pathJoin td g.1) cp g.2.load
      g.2.writeFails K1 K2 fs1 fs2 hagree hg1 hg2 hg3 hg4
    have hrest := ih _ _ hcon.2 (fun g' hg' => hK g' (List.mem_cons_of_mem _ hg'))
    simp only [runAll_cons, processOne_eq]
    exact ⟨by rw [hcon.1, hrest.1], hrest.2⟩

/-- The loop over a split list is the loop over the first part followed by
the loop over the second, records concatenated. -/
theorem runAll_append (hm : Bool) (td cp : String) (fs : FS)
    (xs ys : List (String × FileEnv)) :
    runAll hm td cp fs (xs ++ ys)
      = ((runAll hm td cp (runAll hm td cp fs xs).1 ys).1,
         (runAll hm td cp fs xs).2
           ++ (runAll hm td cp (runAll hm td cp fs xs).1 ys).2) := by
  induction xs generalizing fs with
  | nil => rfl
  | cons x xs ih => simp only [List.cons_append, runAll_cons, ih]

/-! ## Claim C1: one file's failure never aborts or perturbs the batch -/

/-- Claim C1: if the file at position `pre.length` fails — its load raises,
or its cache write would raise (and its cover is not already cached under
either candidate path) — the loop still processes every file: the output has
one record per input, the failing file's record is `{name, name, cover = none}`
(the failure is reported per file by the absorbed handler), and every other
position's record is exactly what it would have been had that file's
environment been anything else (`e2`), provided the other files' cache keys
differ from the failing file's key (true in practice: distinct path strings
hash to distinct MD5 keys). -/
theorem C1_per_file_isolation (hm : Bool) (td cp : String) (fs : FS)
    (pre post : List (String × FileEnv)) (name : String) (e e2 : FileEnv)
    (hfail : e.load = .err
      ∨ (e.writeFails = true
        ∧ fsLookup (runAll hm td cp fs pre).1
            (cp ++ "/" ++ (cacheKey (pathJoin td name) ++ ".jpg")) = none
        ∧ fsLookup (runAll hm td cp fs pre).1
            (cp ++ "/" ++ (cacheKey (pathJoin td name) ++ ".png")) = none))
    (hdist : ∀ g ∈ pre ++ post,
        cacheKey (pathJoin td g.1) ≠ cacheKey (pathJoin td name)) :
    (runAll hm td cp fs (pre ++ (name, e) :: post)).2.length
        = pre.length + 1 + post.length
    ∧ (runAll hm td cp fs (pre ++ (name, e) :: post)).2[pre.length]?
        = some ⟨name, name, none⟩
    ∧ ∀ j, j ≠ pre.length →
        (runAll hm td cp fs (pre ++ (name, e) :: post)).2[j]?
          = (runAll hm td cp fs (pre ++ (name, e2) :: post)).2[j]? := by
  have hlen0 : (runAll hm td cp fs pre).2.length = pre.length :=
    runAll_length hm td cp fs pre
  have hret : (extract_cover hm (pathJoin td name) cp e.load e.writeFails
      (runAll hm td cp fs pre).1).2 = none := by
    cases hm with
    | false => rfl
    | true =>
      rcases hfail with hfe | ⟨hwf, hj, hp⟩
      · rw [hfe]; rfl
      · cases hload : e.load with
        | err => rfl
        | notAudio => rfl
        | ok tags =>
          cases hscan : scanTags tags with
          | errTags => rw [extract_cover_ok, hscan]
          | noImage => rw [extract_cover_ok, hscan]
          | image d ext =>
            cases hd : d.isEmpty with
            | true => rw [extract_cover_image_empty _ _ _ _ _ _ _ hscan hd]
            | false =>
              rw [extract_cover_image _ _ _ _ _ _ _ hscan hd]
              rcases scanTags_ext _ _ _ hscan with he | he <;> subst he
              · simp [hj, hwf]
              · simp [hp, hwf]
  have hagree : ∀ q,
      q ≠ cp ++ "/" ++ (cacheKey (pathJoin td name) ++ ".jpg") →
      q ≠ cp ++ "/" ++ (cacheKey (pathJoin td name) ++ ".png") →
      fsLookup (extract_cover hm (pathJoin td name) cp e.load e.writeFails
        (runAll hm td cp fs pre).1).1 q
        = fsLookup (extract_cover hm (pathJoin td name) cp e2.load
          e2.writeFails (runAll hm td cp fs pre).1).1 q := by
    intro q h1 h2
    rw [extract_cover_lookup_off _ _ _ _ _ _ _ h1 h2,
        extract_cover_lookup_off _ _ _ _ _ _ _ h1 h2]
  have hK : ∀ g ∈ post,
      (cp ++ "/" ++ (cacheKey (pathJoin td g.1) ++ ".jpg")
        ≠ cp ++ "/" ++ (cacheKey (pathJoin td name) ++ ".jpg"))
      ∧ (cp ++ "/" ++ (cacheKey (pathJoin td g.1) ++ ".jpg")
        ≠ cp ++ "/" ++ (cacheKey (pathJoin td name) ++ ".png"))
      ∧ (cp ++ "/" ++ (cacheKey (pathJoin td g.1) ++ ".png")
        ≠ cp ++ "/" ++ (cacheKey (pathJoin td name) ++ ".jpg"))
      ∧ (cp ++ "/" ++ (cacheKey (pathJoin td g.1) ++ ".png")
        ≠ cp ++ "/" ++ (cacheKey (pathJoin td name) ++ ".png")) := by
    intro g hg
    have hne := hdist g (List.mem_append_right pre hg)
    have hlen : (cacheKey (pathJoin td g.1)).length
        = (cacheKey (pathJoin td name)).length := by
      rw [cacheKey_length, cacheKey_length]
    exact ⟨coverPath_ne _ _ _ _ _ hlen hne, coverPath_ne _ _ _ _ _ hlen hne,
           coverPath_ne _ _ _ _ _ hlen hne, coverPath_ne _ _ _ _ _ hlen hne⟩
  have hoff := runAll_eqOff hm td cp
    (cp ++ "/" ++ (cacheKey (pathJoin td name) ++ ".jpg"))
    (cp ++ "/" ++ (cacheKey (pathJoin td name) ++ ".png"))
    (extract_cover hm (pathJoin td name) cp e.load e.writeFails
      (runAll hm td cp fs pre).1).1
    (extract_cover hm (pathJoin td name) cp e2.load e2.writeFails
      (runAll hm td cp fs pre).1).1
    post hagree hK
  refine ⟨?_, ?_, ?_⟩
  · rw [runAll_length]
    simp [Nat.add_comm, Nat.add_assoc, Nat.add_left_comm]
  · rw [runAll_append]
    simp only []
    rw [List.getElem?_append_right (by rw [hlen0])]
    rw [hlen0, Nat.sub_self]
    simp only [runAll_cons, processOne_eq, List.getElem?_cons_zero]
    rw [hret]
  · intro j hj
    rcases Nat.lt_or_ge j pre.length with hlt | hge
    · rw [runAll_append, runAll_append]
      simp only []
      rw [List.getElem?_append_left (by rw [hlen0]; exact hlt),
          List.getElem?_append_left (by rw [hlen0]; exact hlt)]
    · have hge1 : pre.length + 1 ≤ j := by omega
      rw [runAll_append, runAll_append]
      simp only []
      rw [List.getElem?_append_right (by rw [hlen0]; omega),
          List.getElem?_append_right (by rw [hlen0]; omega)]
      rw [hlen0]
      obtain ⟨m, hm⟩ : ∃ m, j - pre.length = m + 1 := ⟨j - pre.length - 1, by omega⟩
      rw [hm]
      simp only [runAll_cons, processOne_eq, List.getElem?_cons_succ]
      rw [hoff.1]

/-- Witness for C3: one JPEG-covered file, extracted twice from an empty
cache; the second pass leaves the cache and the records unchanged. -/
theorem C3_witness :
    runAll true "m" "m/covers"
        (runAll true "m" "m/covers" []
          [("a.mp3", FileEnv.mk (.ok (.id3 [.apic "image/jpeg" [1]])) false)]).1
        [("a.mp3", FileEnv.mk (.ok (.id3 [.apic "image/jpeg" [1]])) false)]
      = runAll true "m" "m/covers" []
          [("a.mp3", FileEnv.mk (.ok (.id3 [.apic "image/jpeg" [1]])) false)] :=
  C3_second_run_idempotent true "m" "m/covers" []
    [("a.mp3", FileEnv.mk (.ok (.id3 [.apic "image/jpeg" [1]])) false)]
    (by decide)

set_option maxRecDepth 8000 in
/-- Witness for C1: `a.mp3` whose load raises, followed by `b.mp3`; the
batch still yields two records, the failing file's record has no cover, and
`b.mp3`'s record is the one an error-free `a.mp3` environment would give. -/
theorem C1_witness :
    (runAll true "m" "m/covers" []
        [("a.mp3", FileEnv.mk .err false),
         ("b.mp3", FileEnv.mk .notAudio false)]).2.length = 2
    ∧ (runAll true "m" "m/covers" []
        [("a.mp3", FileEnv.mk .err false),
         ("b.mp3", FileEnv.mk .notAudio false)]).2[0]?
        = some ⟨"a.mp3", "a.mp3", none⟩
    ∧ ∀ j, j ≠ 0 →
        (runAll true "m" "m/covers" []
          [("a.mp3", FileEnv.mk .err false),
           ("b.mp3", FileEnv.mk .notAudio false)]).2[j]?
          = (runAll true "m" "m/covers" []
            [("a.mp3", FileEnv.mk (.ok .otherTags) false),
             ("b.mp3", FileEnv.mk .notAudio false)]).2[j]? :=
  C1_per_file_isolation true "m" "m/covers" [] []
    [("b.mp3", FileEnv.mk .notAudio false)] "a.mp3"
    (FileEnv.mk .err false) (FileEnv.mk (.ok .otherTags) false)
    (Or.inl rfl) (by decide)

end MusicPlayer
